import Mathlib

/-!
Verification development for the FatPy stress-life core: a shallow
embedding in Lean 4 of the repository's data model (material properties,
FE model), its mean-stress correction strategies (Goodman, Gerber, SWT,
Morrow), the stress-tensor reductions (Manson-McKnight, Dang Van), and
the FE-model column append, with theorems settling the specification
claims. Python floats are modelled as real numbers; NumPy arrays as
lists; Python exceptions as Except/Option results.
-/

/-- Embedding of `fatpy.data_parsing.material.MaterialProperties` (the raw
dataclass record; construction-time validation is `mkMaterialProperties`).
Optional fields are `Option`. -/
structure MaterialProperties where
  name : String
  ultimate_tensile_strength : ℝ
  yield_strength : ℝ
  elastic_modulus : ℝ
  poisson_ratio : ℝ
  fatigue_strength_coefficient : Option ℝ := none
  shear_modulus : Option ℝ := none

/-- Embedding of `MaterialProperties.__post_init__`: dataclass construction
runs the four sequential positivity checks; a failing check raises
`ValueError`, modelled as `Except.error` with the source's message. -/
noncomputable def mkMaterialProperties (name : String) (uts ys e nu : ℝ)
    (fsc g : Option ℝ) : Except String MaterialProperties :=
  if uts ≤ 0 then .error "Ultimate tensile strength must be positive"
  else if ys ≤ 0 then .error "Yield strength must be positive"
  else if e ≤ 0 then .error "Elastic modulus must be positive"
  else if nu ≤ 0 then .error "Poisson's ratio must be positive"
  else .ok ⟨name, uts, ys, e, nu, fsc, g⟩

/-- Embedding of `MaterialProperties.calc_shear_modulus`. The Python method
writes the derived value back into `self.shear_modulus` when it was `None`
(memoisation on read), so the embedding returns the value together with the
post-call state of the record. -/
noncomputable def MaterialProperties.calc_shear_modulus (m : MaterialProperties) :
    ℝ × MaterialProperties :=
  match m.shear_modulus with
  | none =>
      let g := m.elastic_modulus / (2 * (1 + m.poisson_ratio))
      (g, { m with shear_modulus := some g })
  | some g => (g, m)

/-- Pointwise kernel of `GoodmanCorrection.eq_stress_amplitude` /
`calc_goodman_eq_stress`: the two branches of the element-wise
`np.where(mean_stress <= 0, amp, amp / (1 - mean_stress / UTS))`. -/
noncomputable def goodmanPoint (amp mean uts : ℝ) : ℝ :=
  if mean ≤ 0 then amp else amp / (1 - mean / uts)

/-- Embedding of `GoodmanCorrection.eq_stress_amplitude`
(`src/fatpy/utilities/stress_correction.py`): element-wise `np.where`
over equal-shape arrays, modelled as a zip of the pointwise kernel. -/
noncomputable def GoodmanCorrection.eq_stress_amplitude (stress_amplitude mean_stress : List ℝ)
    (material : MaterialProperties) : List ℝ :=
  List.zipWith (fun a m => goodmanPoint a m material.ultimate_tensile_strength)
    stress_amplitude mean_stress

/-- Embedding of `GerberCorrection.eq_stress_amplitude`: the source guards
with a scalar `if mean_stress <= 0` (not element-wise), so the embedding is
the scalar function. -/
noncomputable def GerberCorrection.eq_stress_amplitude (stress_amplitude mean_stress : ℝ)
    (material : MaterialProperties) : ℝ :=
  if mean_stress ≤ 0 then stress_amplitude
  else stress_amplitude /
    (1 - (mean_stress / material.ultimate_tensile_strength) ^ 2)

/-- Embedding of `SWTCorrection.eq_stress_amplitude`: the source computes
`max_stress = mean_stress + stress_amplitude` and guards with the scalar
test `if max_stress <= 0` (note: the guard is on `max_stress`, not on
`mean_stress`). The `material` argument is accepted and unused, as in the
source. -/
noncomputable def SWTCorrection.eq_stress_amplitude (stress_amplitude mean_stress : ℝ)
    (_material : MaterialProperties) : ℝ :=
  if mean_stress + stress_amplitude ≤ 0 then stress_amplitude
  else Real.sqrt ((mean_stress + stress_amplitude) * stress_amplitude)

/-- Embedding of `MorrowCorrection.eq_stress_amplitude`: scalar guard
`if mean_stress <= 0` returns the amplitude; otherwise the source evaluates
`stress_amplitude / (1 - mean_stress / material.fatigue_strength_coefficient)`,
which raises a TypeError when the coefficient is `None` — modelled as
`Except.error`. -/
noncomputable def MorrowCorrection.eq_stress_amplitude (stress_amplitude mean_stress : ℝ)
    (material : MaterialProperties) : Except String ℝ :=
  if mean_stress ≤ 0 then .ok stress_amplitude
  else
    match material.fatigue_strength_coefficient with
    | none => .error "unsupported operand type for /: float and NoneType"
    | some c => .ok (stress_amplitude / (1 - mean_stress / c))

/-- Concrete material used in witnesses and counterexamples: no
`fatigue_strength_coefficient`, no stored `shear_modulus`. -/
noncomputable def sampleMaterial : MaterialProperties :=
  ⟨"steel", 500, 250, 210000, 0.3, none, none⟩

/-- One row of an (n, 6) stress tensor table, component order
[Sxx, Syy, Szz, Sxy, Syz, Szx] as fixed by the source docstrings. The
source functions are vectorized over the point axis; the embedding models
them point-wise and maps over the rows. -/
structure Tensor6 where
  sxx : ℝ
  syy : ℝ
  szz : ℝ
  sxy : ℝ
  syz : ℝ
  szx : ℝ

/-- The von Mises-style invariant computed by `manson_mcknight_criterion`
(`src/fatpy/core/stress_life/stress_invariant_criterions.py`, lines 36-48):
0.5 * sqrt((Sxx-Syy)^2 + (Syy-Szz)^2 + (Szz-Sxx)^2 + 6*(Sxy^2+Syz^2+Szx^2)). -/
noncomputable def vonMises (t : Tensor6) : ℝ :=
  0.5 * Real.sqrt ((t.sxx - t.syy) ^ 2 + (t.syy - t.szz) ^ 2 +
    (t.szz - t.sxx) ^ 2 + 6 * (t.sxy ^ 2 + t.syz ^ 2 + t.szx ^ 2))

/-- Hydrostatic sum Sxx + Syy + Szz (`hydrostatic_mean` in the source). -/
noncomputable def hydrostatic (t : Tensor6) : ℝ :=
  t.sxx + t.syy + t.szz

/-- Per-point mean stress tensor `(min + max) / 2` from
`manson_mcknight_criterion`. -/
noncomputable def tensorMean (tmin tmax : Tensor6) : Tensor6 :=
  ⟨(tmin.sxx + tmax.sxx) / 2, (tmin.syy + tmax.syy) / 2,
   (tmin.szz + tmax.szz) / 2, (tmin.sxy + tmax.sxy) / 2,
   (tmin.syz + tmax.syz) / 2, (tmin.szx + tmax.szx) / 2⟩

/-- Per-point amplitude stress tensor `(max - min) / 2` from
`manson_mcknight_criterion`. -/
noncomputable def tensorAmp (tmin tmax : Tensor6) : Tensor6 :=
  ⟨(tmax.sxx - tmin.sxx) / 2, (tmax.syy - tmin.syy) / 2,
   (tmax.szz - tmin.szz) / 2, (tmax.sxy - tmin.sxy) / 2,
   (tmax.syz - tmin.syz) / 2, (tmax.szx - tmin.szx) / 2⟩

/-- Per-point body of `manson_mcknight_criterion`: the pair
`(eq_mean_stress, eq_amplitude_stress)` at one evaluation point, with
`eq_mean = np.sign(hydrostatic_mean) * vm_mean` and `eq_amplitude = vm_amp`.
`Real.sign` agrees with `np.sign` on reals (-1, 0, or 1). -/
noncomputable def mmReducePoint (tmin tmax : Tensor6) : ℝ × ℝ :=
  (Real.sign (hydrostatic (tensorMean tmin tmax)) * vonMises (tensorMean tmin tmax),
   vonMises (tensorAmp tmin tmax))

/-- Embedding of `manson_mcknight_criterion`
(`src/fatpy/core/stress_life/stress_invariant_criterions.py`): returns the
pair of shape-(n,) arrays (eq_mean_stress, eq_amplitude_stress). -/
noncomputable def manson_mcknight_criterion (min_stress_tensor max_stress_tensor : List Tensor6) :
    List ℝ × List ℝ :=
  ((List.zipWith mmReducePoint min_stress_tensor max_stress_tensor).map Prod.fst,
   (List.zipWith mmReducePoint min_stress_tensor max_stress_tensor).map Prod.snd)

/-- Per-point body of `dang_van_criterion`
(`src/fatpy/core/stress_life/eq_stress_criterion.py`, lines 155-181):
hydrostatic pressure, deviatoric normal components, J2, and
`sqrt(J2) + alpha * p`. Only `alpha` of the material parameters enters. -/
noncomputable def dangVanPoint (t : Tensor6) (alpha : ℝ) : ℝ :=
  let p := -(t.sxx + t.syy + t.szz) / 3
  let s_xx := t.sxx + p
  let s_yy := t.syy + p
  let s_zz := t.szz + p
  let J2 := 0.5 * (s_xx ^ 2 + s_yy ^ 2 + s_zz ^ 2) +
    t.sxy ^ 2 + t.syz ^ 2 + t.szx ^ 2
  Real.sqrt J2 + alpha * p

/-- Embedding of `dang_van_criterion`: the source unpacks
`alpha, tau_limit = material_parameters` and `tau_limit` does not occur in
the returned expression. -/
noncomputable def dang_van_criterion (stress_tensor : List Tensor6)
    (material_parameters : ℝ × ℝ) : List ℝ :=
  stress_tensor.map (fun t => dangVanPoint t material_parameters.1)

/-- Embedding of `fatpy.data_parsing.fe_model.FEModel`. Element/node ids are
integers, coordinates are (x, y, z) triples, the stress tensor table is a
list of rows, connectivity is an insertion-ordered mapping (Python dict),
modelled as an association list. `node_element_map` is the field computed by
`__post_init__`. -/
structure FEModel where
  element_id : List ℤ
  node_id : List ℤ
  node_coordinates : List (ℝ × ℝ × ℝ)
  stress_tensor : List (List ℝ)
  connectivity : List (ℤ × List ℤ)
  node_element_map : List (ℤ × List ℤ)

/-- One step of `__post_init__`'s map construction: Python's
`if node_id not in map: map[node_id] = []` followed by
`map[node_id].append(element_id)` — append to the existing entry, or add a
new key at the end (Python dicts preserve insertion order). -/
def dictAppendVal : List (ℤ × List ℤ) → ℤ → ℤ → List (ℤ × List ℤ)
  | [], k, v => [(k, [v])]
  | (k', l) :: rest, k, v =>
      if k' = k then (k', l ++ [v]) :: rest
      else (k', l) :: dictAppendVal rest k v

/-- Embedding of the `__post_init__` loop computing `node_element_map`:
for each (element_id, node_list) in connectivity order, append element_id
under every node in node_list. -/
def buildNodeElementMap (connectivity : List (ℤ × List ℤ)) : List (ℤ × List ℤ) :=
  connectivity.foldl
    (fun d p => p.2.foldl (fun d' n => dictAppendVal d' n p.1) d) []

/-- Dictionary lookup returning the stored list, or [] for an absent key
(an absent key lists no elements). -/
def lookupList : List (ℤ × List ℤ) → ℤ → List ℤ
  | [], _ => []
  | (k, l) :: rest, n => if k = n then l else lookupList rest n

/-- Specification-side description of the node-to-element map: under node
`n`, element id `e` occurs once per occurrence of `n` in `connectivity[e]`,
in connectivity iteration order. -/
def occList (connectivity : List (ℤ × List ℤ)) (n : ℤ) : List ℤ :=
  connectivity.flatMap (fun p => List.replicate (p.2.count n) p.1)

/-- Embedding of `FEModel` dataclass construction: the shape-validation
checks in `__post_init__` are commented out in the source, so construction
always succeeds and only computes `node_element_map`. -/
def mkFEModel (element_id node_id : List ℤ) (node_coordinates : List (ℝ × ℝ × ℝ))
    (stress_tensor : List (List ℝ)) (connectivity : List (ℤ × List ℤ)) : FEModel :=
  ⟨element_id, node_id, node_coordinates, stress_tensor, connectivity,
   buildNodeElementMap connectivity⟩

/-- Model of `np.column_stack((table, col))` for a 2-D table and a 1-D
column, as used by `FEModel.add_stress_column`: appends the column entries
row-wise; NumPy raises ValueError when the row counts differ, modelled as
`none`. -/
def columnStack (table : List (List ℝ)) (col : List ℝ) : Option (List (List ℝ)) :=
  if table.length = col.length then
    some (List.zipWith (fun r x => r ++ [x]) table col)
  else none

/-- Embedding of `FEModel.add_stress_column`: replaces `stress_tensor` with
the column-stacked table, leaving every other field as is. -/
def FEModel.add_stress_column (m : FEModel) (stress_col : List ℝ) : Option FEModel :=
  (columnStack m.stress_tensor stress_col).map
    (fun t => { m with stress_tensor := t })

/-- Model of `np.ndarray.min()` on the flattened table: `none` on an empty
array (NumPy raises on empty input). -/
noncomputable def npMin : List ℝ → Option ℝ
  | [] => none
  | x :: xs => some (xs.foldl min x)

/-- Model of `np.ndarray.max()` on the flattened table. -/
noncomputable def npMax : List ℝ → Option ℝ
  | [] => none
  | x :: xs => some (xs.foldl max x)

/-- Embedding of `MansonMcKnight.calculate_eq_stress`
(`src/fatpy/core/stress_life/eq_stress_criterion.py`, lines 57-80): takes
the GLOBAL scalar min and max over the whole stress table, forms scalar
mean and amplitude, computes `sigma_m = sqrt(mean**2)` and
`sigma_a = sqrt(amplitude**2)` (the source comments this `# dummy
calculation`), and returns the correction applied to those two scalars —
a single value, not a per-point array. The correction strategy is passed
as a function, mirroring the `MeanStressCorrection` argument. -/
noncomputable def MansonMcKnight.calculate_eq_stress
    (correction : ℝ → ℝ → MaterialProperties → ℝ)
    (fe_data : FEModel) (material : MaterialProperties) : Option ℝ :=
  match npMin (fe_data.stress_tensor.flatMap id),
        npMax (fe_data.stress_tensor.flatMap id) with
  | some mn, some mx =>
      let mean := (mx + mn) / 2
      let amplitude := (mx - mn) / 2
      some (correction (Real.sqrt (amplitude ^ 2)) (Real.sqrt (mean ^ 2)) material)
  | _, _ => none

/-! Helper lemmas shared by several claim theorems. -/

/-- Looking a key up after a `dictAppendVal` step: the appended key gains
`v` at the end of its list; other keys are untouched. -/
theorem lookupList_dictAppendVal :
    ∀ (d : List (ℤ × List ℤ)) (k v n : ℤ),
      lookupList (dictAppendVal d k v) n =
        if n = k then lookupList d n ++ [v] else lookupList d n := by
  intro d
  induction d with
  | nil =>
      intro k v n
      by_cases h : n = k
      · subst h; simp [dictAppendVal, lookupList]
      · have h' : ¬k = n := fun hh => h hh.symm
        simp [dictAppendVal, lookupList, h, h']
  | cons p rest ih =>
      intro k v n
      obtain ⟨k', l⟩ := p
      by_cases h1 : k' = k
      · subst h1
        by_cases h2 : k' = n
        · subst h2; simp [dictAppendVal, lookupList]
        · have h2' : ¬n = k' := fun hh => h2 hh.symm
          simp [dictAppendVal, lookupList, h2, h2']
      · by_cases h2 : k' = n
        · subst h2; simp [dictAppendVal, lookupList, h1]
        · simp [dictAppendVal, lookupList, h1, h2, ih k v n]

/-- Folding one element's node list into the dictionary appends the element
id under node `n` once per occurrence of `n` in the node list. -/
theorem lookupList_foldl_dictAppendVal (e : ℤ) :
    ∀ (ns : List ℤ) (d : List (ℤ × List ℤ)) (n : ℤ),
      lookupList (ns.foldl (fun d' m => dictAppendVal d' m e) d) n =
        lookupList d n ++ List.replicate (ns.count n) e := by
  intro ns
  induction ns with
  | nil => intro d n; simp
  | cons m rest ih =>
      intro d n
      simp only [List.foldl_cons]
      rw [ih (dictAppendVal d m e) n, lookupList_dictAppendVal]
      by_cases h : n = m
      · subst h
        rw [if_pos rfl]
        simp [List.count_cons, List.replicate_succ, List.append_assoc]
      · rw [if_neg h]
        have hmn : ¬m = n := fun hh => h hh.symm
        have hc : (m :: rest).count n = rest.count n := by
          simp [List.count_cons, hmn]
        rw [hc]

/-- Folding a whole connectivity prefix into the dictionary appends exactly
the occurrence list of each node. -/
theorem lookupList_foldl_connectivity :
    ∀ (conn : List (ℤ × List ℤ)) (d : List (ℤ × List ℤ)) (n : ℤ),
      lookupList (conn.foldl
          (fun d p => p.2.foldl (fun d' m => dictAppendVal d' m p.1) d) d) n =
        lookupList d n ++ occList conn n := by
  intro conn
  induction conn with
  | nil => intro d n; simp [occList]
  | cons p rest ih =>
      intro d n
      simp only [List.foldl_cons]
      rw [ih, lookupList_foldl_dictAppendVal]
      simp [occList, List.append_assoc]

/-- The node-to-element map built by `__post_init__` lists, under each node,
exactly the occurrence list of that node in the connectivity. -/
theorem lookupList_buildNodeElementMap (conn : List (ℤ × List ℤ)) (n : ℤ) :
    lookupList (buildNodeElementMap conn) n = occList conn n := by
  have h := lookupList_foldl_connectivity conn [] n
  simpa [buildNodeElementMap, lookupList] using h

/-- The von Mises-style invariant is a scaled square root, hence
non-negative. -/
theorem vonMises_nonneg (t : Tensor6) : 0 ≤ vonMises t := by
  unfold vonMises
  positivity

/-- Sign behaviour of the signed mean invariant at one point: zero whenever
the hydrostatic sum is zero, and agreeing in sign with the hydrostatic sum
whenever the von Mises invariant of the mean tensor is nonzero. -/
theorem mmReducePoint_fst_sign (tmin tmax : Tensor6) :
    (hydrostatic (tensorMean tmin tmax) = 0 → (mmReducePoint tmin tmax).1 = 0) ∧
    (vonMises (tensorMean tmin tmax) ≠ 0 →
      Real.sign ((mmReducePoint tmin tmax).1) =
        Real.sign (hydrostatic (tensorMean tmin tmax))) := by
  constructor
  · intro h
    simp [mmReducePoint, h, Real.sign_zero]
  · intro hvm
    have hv0 : 0 < vonMises (tensorMean tmin tmax) :=
      lt_of_le_of_ne (vonMises_nonneg _) (Ne.symm hvm)
    rcases lt_trichotomy (hydrostatic (tensorMean tmin tmax)) 0 with h | h | h
    · have hval : (mmReducePoint tmin tmax).1 < 0 := by
        simp only [mmReducePoint]
        rw [Real.sign_of_neg h]
        nlinarith
      rw [Real.sign_of_neg hval, Real.sign_of_neg h]
    · simp [mmReducePoint, h, Real.sign_zero]
    · have hval : 0 < (mmReducePoint tmin tmax).1 := by
        simp only [mmReducePoint]
        rw [Real.sign_of_pos h]
        nlinarith
      rw [Real.sign_of_pos hval, Real.sign_of_pos h]

/-- Second concrete material, with a stored shear modulus. -/
noncomputable def sampleMaterialWithShear : MaterialProperties :=
  ⟨"alu", 300, 200, 70000, 0.33, none, some 26000⟩

/-- Claim C1 counterexample: the SWT correction does not return the input
amplitude unchanged at mean stress -50 ≤ 0 with amplitude 100 — its guard
tests max_stress = mean + amplitude = 50 > 0, so it returns sqrt(5000)
(about 70.7), not 100. -/
theorem claim_C1_counterexample :
    SWTCorrection.eq_stress_amplitude 100 (-50) sampleMaterial ≠ 100 := by
  unfold SWTCorrection.eq_stress_amplitude
  rw [if_neg (by norm_num : ¬((-50 : ℝ) + 100 ≤ 0))]
  have h50 : ((-50 : ℝ) + 100) * 100 = 5000 := by norm_num
  rw [h50]
  have hlt : Real.sqrt 5000 < 100 := by
    rw [Real.sqrt_lt' (by norm_num : (0 : ℝ) < 100)]
    norm_num
  exact ne_of_lt hlt

/-- Claim C1 (amended): Goodman applies the mean ≤ 0 identity floor
element-wise; Gerber and Morrow apply it under their scalar guard; SWT
returns the amplitude unchanged only where mean + amplitude ≤ 0 (its guard
is on max_stress, not on the mean stress). -/
theorem claim_C1_amended :
    (∀ (amps means : List ℝ) (mat : MaterialProperties) (i : ℕ) (a m : ℝ),
        amps[i]? = some a → means[i]? = some m → m ≤ 0 →
        (GoodmanCorrection.eq_stress_amplitude amps means mat)[i]? = some a) ∧
    (∀ (a m : ℝ) (mat : MaterialProperties), m ≤ 0 →
        GerberCorrection.eq_stress_amplitude a m mat = a ∧
        MorrowCorrection.eq_stress_amplitude a m mat = Except.ok a) ∧
    (∀ (a m : ℝ) (mat : MaterialProperties), m + a ≤ 0 →
        SWTCorrection.eq_stress_amplitude a m mat = a) := by
  refine ⟨?_, ?_, ?_⟩
  · intro amps means mat i a m ha hm hm0
    unfold GoodmanCorrection.eq_stress_amplitude
    rw [List.getElem?_zipWith', ha, hm]
    simp [goodmanPoint, hm0]
  · intro a m mat hm
    constructor
    · unfold GerberCorrection.eq_stress_amplitude
      rw [if_pos hm]
    · unfold MorrowCorrection.eq_stress_amplitude
      rw [if_pos hm]
  · intro a m mat hma
    unfold SWTCorrection.eq_stress_amplitude
    rw [if_pos hma]

/-- Claim C1 witness: the amended floor evaluated at concrete inputs for
all four corrections. -/
theorem claim_C1_witness :
    (GoodmanCorrection.eq_stress_amplitude [100] [-50] sampleMaterial)[0]? =
      some 100 ∧
    GerberCorrection.eq_stress_amplitude 100 (-50) sampleMaterial = 100 ∧
    MorrowCorrection.eq_stress_amplitude 100 (-50) sampleMaterial = Except.ok 100 ∧
    SWTCorrection.eq_stress_amplitude 50 (-100) sampleMaterial = 50 := by
  refine ⟨?_, ?_, ?_, ?_⟩
  · exact claim_C1_amended.1 [100] [-50] sampleMaterial 0 100 (-50) rfl rfl
      (by norm_num)
  · exact (claim_C1_amended.2.1 100 (-50) sampleMaterial (by norm_num)).1
  · exact (claim_C1_amended.2.1 100 (-50) sampleMaterial (by norm_num)).2
  · exact claim_C1_amended.2.2 50 (-100) sampleMaterial (by norm_num)

/-- Claim C5: for 0 < mean < UTS the Goodman correction takes the formula
branch amplitude / (1 - mean/UTS). -/
theorem claim_C5_goodman (amp mean uts : ℝ) (h1 : 0 < mean) (_h2 : mean < uts) :
    goodmanPoint amp mean uts = amp / (1 - mean / uts) := by
  unfold goodmanPoint
  rw [if_neg (not_le.mpr h1)]

/-- Claim C5 witness: amplitude 100, mean 50, UTS 500 gives
100 / (1 - 50/500) = 1000/9 = 111.111... . -/
theorem claim_C5_witness :
    (0 : ℝ) < 50 ∧ (50 : ℝ) < 500 ∧ goodmanPoint 100 50 500 = 1000 / 9 := by
  refine ⟨by norm_num, by norm_num, ?_⟩
  rw [claim_C5_goodman 100 50 500 (by norm_num) (by norm_num)]
  norm_num

/-- Claim C7 counterexample: with the fatigue strength coefficient absent
and mean stress -1 ≤ 0, the Morrow correction returns the amplitude and
signals no error — the claim's "for every input" fails. -/
theorem claim_C7_counterexample :
    MorrowCorrection.eq_stress_amplitude 100 (-1) sampleMaterial = Except.ok 100 := by
  unfold MorrowCorrection.eq_stress_amplitude
  rw [if_pos (by norm_num : (-1 : ℝ) ≤ 0)]

/-- Claim C7 (amended): with the coefficient absent, Morrow signals the
missing-parameter error exactly when mean stress > 0 (when the coefficient
is actually used); for mean ≤ 0 it returns the amplitude unchanged. -/
theorem claim_C7_amended (amp mean : ℝ) (mat : MaterialProperties)
    (hnone : mat.fatigue_strength_coefficient = none) :
    (0 < mean → MorrowCorrection.eq_stress_amplitude amp mean mat =
        Except.error "unsupported operand type for /: float and NoneType") ∧
    (mean ≤ 0 → MorrowCorrection.eq_stress_amplitude amp mean mat =
        Except.ok amp) := by
  constructor
  · intro h
    unfold MorrowCorrection.eq_stress_amplitude
    rw [if_neg (not_le.mpr h), hnone]
  · intro h
    unfold MorrowCorrection.eq_stress_amplitude
    rw [if_pos h]

/-- Claim C7 witness: both branches of the amended statement at concrete
inputs on a material without the coefficient. -/
theorem claim_C7_witness :
    sampleMaterial.fatigue_strength_coefficient = none ∧
    MorrowCorrection.eq_stress_amplitude 100 1 sampleMaterial =
      Except.error "unsupported operand type for /: float and NoneType" ∧
    MorrowCorrection.eq_stress_amplitude 100 0 sampleMaterial = Except.ok 100 := by
  refine ⟨rfl, ?_, ?_⟩
  · exact (claim_C7_amended 100 1 sampleMaterial rfl).1 (by norm_num)
  · exact (claim_C7_amended 100 0 sampleMaterial rfl).2 (by norm_num)

/-- Claim C8 counterexample: `calc_shear_modulus` is not read-only — on a
record with `shear_modulus` absent it writes the derived value back, so the
post-call record differs from the original. -/
theorem claim_C8_counterexample :
    (sampleMaterial.calc_shear_modulus).2 ≠ sampleMaterial := by
  intro h
  have h2 := congrArg MaterialProperties.shear_modulus h
  simp [MaterialProperties.calc_shear_modulus, sampleMaterial] at h2

/-- Claim C8 (amended): `calc_shear_modulus` returns
elastic_modulus / (2*(1+poisson_ratio)) when `shear_modulus` is absent but
memoises it into the record (only the `shear_modulus` field changes); when
the field is present it returns the stored value and leaves the record
unchanged. -/
theorem claim_C8_amended (m : MaterialProperties) :
    (m.shear_modulus = none →
      (m.calc_shear_modulus).1 = m.elastic_modulus / (2 * (1 + m.poisson_ratio)) ∧
      (m.calc_shear_modulus).2 = { m with shear_modulus := some (m.elastic_modulus / (2 * (1 + m.poisson_ratio))) }) ∧
    (∀ g, m.shear_modulus = some g → m.calc_shear_modulus = (g, m)) := by
  constructor
  · intro h
    constructor
    · unfold MaterialProperties.calc_shear_modulus
      rw [h]
    · unfold MaterialProperties.calc_shear_modulus
      rw [h]
  · intro g h
    unfold MaterialProperties.calc_shear_modulus
    rw [h]

/-- Claim C8 witness: both branches of the amended statement on concrete
materials. -/
theorem claim_C8_witness :
    sampleMaterial.shear_modulus = none ∧
    (sampleMaterial.calc_shear_modulus).1 = 210000 / (2 * (1 + 0.3)) ∧
    (sampleMaterial.calc_shear_modulus).2 =
      { sampleMaterial with shear_modulus := some (210000 / (2 * (1 + 0.3))) } ∧
    sampleMaterialWithShear.calc_shear_modulus = (26000, sampleMaterialWithShear) := by
  refine ⟨rfl, ?_, ?_, ?_⟩
  · exact ((claim_C8_amended sampleMaterial).1 rfl).1
  · exact ((claim_C8_amended sampleMaterial).1 rfl).2
  · exact (claim_C8_amended sampleMaterialWithShear).2 26000 rfl

/-- Claim C9: dataclass construction succeeds (yielding the record with the
given fields) exactly when all four required fields are positive, and any
non-positive required field makes construction fail with a validation
error. -/
theorem claim_C9_validation (name : String) (uts ys e nu : ℝ) (fsc g : Option ℝ) :
    (mkMaterialProperties name uts ys e nu fsc g =
        Except.ok ⟨name, uts, ys, e, nu, fsc, g⟩ ↔
      (0 < uts ∧ 0 < ys ∧ 0 < e ∧ 0 < nu)) ∧
    ((uts ≤ 0 ∨ ys ≤ 0 ∨ e ≤ 0 ∨ nu ≤ 0) →
      ∃ msg, mkMaterialProperties name uts ys e nu fsc g = Except.error msg) := by
  constructor
  · constructor
    · intro h
      unfold mkMaterialProperties at h
      split_ifs at h with h1 h2 h3 h4
      exact ⟨not_le.mp h1, not_le.mp h2, not_le.mp h3, not_le.mp h4⟩
    · rintro ⟨h1, h2, h3, h4⟩
      unfold mkMaterialProperties
      rw [if_neg (not_le.mpr h1), if_neg (not_le.mpr h2),
        if_neg (not_le.mpr h3), if_neg (not_le.mpr h4)]
  · intro h
    unfold mkMaterialProperties
    by_cases h1 : uts ≤ 0
    · exact ⟨_, by rw [if_pos h1]⟩
    by_cases h2 : ys ≤ 0
    · exact ⟨_, by rw [if_neg h1, if_pos h2]⟩
    by_cases h3 : e ≤ 0
    · exact ⟨_, by rw [if_neg h1, if_neg h2, if_pos h3]⟩
    by_cases h4 : nu ≤ 0
    · exact ⟨_, by rw [if_neg h1, if_neg h2, if_neg h3, if_pos h4]⟩
    rcases h with h | h | h | h
    · exact absurd h h1
    · exact absurd h h2
    · exact absurd h h3
    · exact absurd h h4

/-- Claim C9 witness: a fully positive record constructs to exactly the
given fields; a non-positive ultimate tensile strength fails with an
error. -/
theorem claim_C9_witness :
    mkMaterialProperties "ok" 1 1 1 1 none none =
      Except.ok ⟨"ok", 1, 1, 1, 1, none, none⟩ ∧
    (∃ msg, mkMaterialProperties "bad" (-1) 1 1 1 none none =
      Except.error msg) := by
  constructor
  · exact (claim_C9_validation "ok" 1 1 1 1 none none).1.mpr (by norm_num)
  · exact (claim_C9_validation "bad" (-1) 1 1 1 none none).2 (Or.inl (by norm_num))

/-- Claim C3 counterexample: for the pure hydrostatic pair min = max =
[10,10,10,0,0,0], the hydrostatic mean sum is 30 > 0 (sign 1) but the mean
output is sign(30) * vm_mean = 1 * 0 = 0 (sign 0): the mean output's sign
does not equal the sign of the hydrostatic sum. -/
theorem claim_C3_counterexample :
    Real.sign ((mmReducePoint ⟨10, 10, 10, 0, 0, 0⟩ ⟨10, 10, 10, 0, 0, 0⟩).1) ≠
      Real.sign (hydrostatic (tensorMean ⟨10, 10, 10, 0, 0, 0⟩ ⟨10, 10, 10, 0, 0, 0⟩)) := by
  have hmean : tensorMean ⟨10, 10, 10, 0, 0, 0⟩ ⟨10, 10, 10, 0, 0, 0⟩ =
      ⟨10, 10, 10, 0, 0, 0⟩ := by
    unfold tensorMean
    norm_num
  have hv : vonMises (⟨10, 10, 10, 0, 0, 0⟩ : Tensor6) = 0 := by
    unfold vonMises
    norm_num
  have hh : hydrostatic (⟨10, 10, 10, 0, 0, 0⟩ : Tensor6) = 30 := by
    unfold hydrostatic
    norm_num
  unfold mmReducePoint
  rw [hmean, hv, hh, mul_zero, Real.sign_zero,
    Real.sign_of_pos (by norm_num : (0 : ℝ) < 30)]
  norm_num

/-- Claim C3 (amended): at every evaluation point the amplitude output of
the Manson-McKnight reduction is non-negative; the mean output is exactly
zero whenever the hydrostatic mean sum is zero; and whenever the von Mises
invariant of the mean tensor is nonzero, the mean output's sign equals the
sign of the hydrostatic mean sum. -/
theorem claim_C3_amended (mins maxs : List Tensor6) (i : ℕ) (tmin tmax : Tensor6)
    (hmin : mins[i]? = some tmin) (hmax : maxs[i]? = some tmax) :
    ∃ m a, (manson_mcknight_criterion mins maxs).1[i]? = some m ∧
      (manson_mcknight_criterion mins maxs).2[i]? = some a ∧
      0 ≤ a ∧
      (hydrostatic (tensorMean tmin tmax) = 0 → m = 0) ∧
      (vonMises (tensorMean tmin tmax) ≠ 0 →
        Real.sign m = Real.sign (hydrostatic (tensorMean tmin tmax))) := by
  refine ⟨(mmReducePoint tmin tmax).1, (mmReducePoint tmin tmax).2, ?_, ?_, ?_, ?_, ?_⟩
  · unfold manson_mcknight_criterion
    rw [List.getElem?_map, List.getElem?_zipWith', hmin, hmax]
    rfl
  · unfold manson_mcknight_criterion
    rw [List.getElem?_map, List.getElem?_zipWith', hmin, hmax]
    rfl
  · exact vonMises_nonneg (tensorAmp tmin tmax)
  · exact (mmReducePoint_fst_sign tmin tmax).1
  · exact (mmReducePoint_fst_sign tmin tmax).2

/-- Claim C3 witness: the amended statement at the concrete single-point
pair min = [0,0,0,0,0,0], max = [2,0,0,0,0,0]. -/
theorem claim_C3_witness :
    ∃ m a, (manson_mcknight_criterion [⟨0, 0, 0, 0, 0, 0⟩] [⟨2, 0, 0, 0, 0, 0⟩]).1[0]? =
        some m ∧
      (manson_mcknight_criterion [⟨0, 0, 0, 0, 0, 0⟩] [⟨2, 0, 0, 0, 0, 0⟩]).2[0]? =
        some a ∧
      0 ≤ a ∧
      (hydrostatic (tensorMean ⟨0, 0, 0, 0, 0, 0⟩ ⟨2, 0, 0, 0, 0, 0⟩) = 0 → m = 0) ∧
      (vonMises (tensorMean ⟨0, 0, 0, 0, 0, 0⟩ ⟨2, 0, 0, 0, 0, 0⟩) ≠ 0 →
        Real.sign m =
          Real.sign (hydrostatic (tensorMean ⟨0, 0, 0, 0, 0, 0⟩ ⟨2, 0, 0, 0, 0, 0⟩))) :=
  claim_C3_amended [⟨0, 0, 0, 0, 0, 0⟩] [⟨2, 0, 0, 0, 0, 0⟩] 0
    ⟨0, 0, 0, 0, 0, 0⟩ ⟨2, 0, 0, 0, 0, 0⟩ rfl rfl

/-- Claim C4: the Dang Van criterion never depends on tau_limit; at each
point it returns sqrt(J2) + alpha*p with p = -(Sxx+Syy+Szz)/3 and J2 built
from the deviatoric components; and on the row [30,0,0,0,0,0] with
alpha = 0.3 it returns sqrt(300) + 0.3*(-10), which is within 0.01 of
14.32. -/
theorem claim_C4_dang_van :
    (∀ (rows : List Tensor6) (alpha tau1 tau2 : ℝ),
        dang_van_criterion rows (alpha, tau1) = dang_van_criterion rows (alpha, tau2)) ∧
    (∀ (rows : List Tensor6) (i : ℕ) (t : Tensor6) (alpha tau : ℝ),
        rows[i]? = some t →
        (dang_van_criterion rows (alpha, tau))[i]? =
          some (Real.sqrt (0.5 * ((t.sxx + -(t.sxx + t.syy + t.szz) / 3) ^ 2 +
              (t.syy + -(t.sxx + t.syy + t.szz) / 3) ^ 2 +
              (t.szz + -(t.sxx + t.syy + t.szz) / 3) ^ 2) +
              t.sxy ^ 2 + t.syz ^ 2 + t.szx ^ 2) +
            alpha * (-(t.sxx + t.syy + t.szz) / 3))) ∧
    (∀ tau : ℝ, dang_van_criterion [⟨30, 0, 0, 0, 0, 0⟩] (0.3, tau) =
        [Real.sqrt 300 + 0.3 * (-10)]) ∧
    |dangVanPoint ⟨30, 0, 0, 0, 0, 0⟩ 0.3 - 14.32| < 0.01 := by
  have hval : dangVanPoint ⟨30, 0, 0, 0, 0, 0⟩ 0.3 = Real.sqrt 300 + 0.3 * (-10) := by
    unfold dangVanPoint
    norm_num
  refine ⟨?_, ?_, ?_, ?_⟩
  · intro rows alpha tau1 tau2
    rfl
  · intro rows i t alpha tau h
    unfold dang_van_criterion
    rw [List.getElem?_map, h]
    rfl
  · intro tau
    unfold dang_van_criterion
    simp only [List.map_cons, List.map_nil]
    rw [hval]
  · rw [hval]
    have hlow : (17.31 : ℝ) < Real.sqrt 300 := by
      rw [show (17.31 : ℝ) = |17.31| by rw [abs_of_pos]; norm_num]
      rw [← Real.sqrt_sq_eq_abs]
      exact Real.sqrt_lt_sqrt (by norm_num) (by norm_num)
    have hhigh : Real.sqrt 300 < 17.33 := by
      rw [Real.sqrt_lt' (by norm_num : (0 : ℝ) < 17.33)]
      norm_num
    rw [abs_lt]
    constructor <;> nlinarith

/-- Claim C4 witness: the per-point formula conjunct evaluated on the
concrete single-row table with alpha = 0.3, tau_limit = 5. -/
theorem claim_C4_witness :
    (dang_van_criterion [⟨30, 0, 0, 0, 0, 0⟩] ((0.3 : ℝ), 5))[0]? =
      some (Real.sqrt (0.5 * (((30 : ℝ) + -(30 + 0 + 0) / 3) ^ 2 +
          (0 + -(30 + 0 + 0) / 3) ^ 2 + (0 + -(30 + 0 + 0) / 3) ^ 2) +
          0 ^ 2 + 0 ^ 2 + 0 ^ 2) +
        0.3 * (-(30 + 0 + 0) / 3)) :=
  claim_C4_dang_van.2.1 [⟨30, 0, 0, 0, 0, 0⟩] 0 ⟨30, 0, 0, 0, 0, 0⟩ 0.3 5 rfl

/-- Claim C6: appending a length-matched column to an (n,6) stress table
succeeds, preserving the row count, leaving the first six columns of every
row unchanged and appending the new value as a seventh column in order; a
length-mismatched column makes the call fail (NumPy column_stack raises). -/
theorem claim_C6_add_stress_column (m : FEModel) (col : List ℝ)
    (hrows : ∀ r ∈ m.stress_tensor, r.length = 6) :
    (m.stress_tensor.length = col.length →
      ∃ m', m.add_stress_column col = some m' ∧
        m'.stress_tensor.length = m.stress_tensor.length ∧
        ∀ (i : ℕ) (r : List ℝ) (x : ℝ),
          m.stress_tensor[i]? = some r → col[i]? = some x →
          m'.stress_tensor[i]? = some (r ++ [x]) ∧ (r ++ [x]).length = 7) ∧
    (m.stress_tensor.length ≠ col.length → m.add_stress_column col = none) := by
  constructor
  · intro hlen
    refine ⟨{ m with stress_tensor := List.zipWith (fun r x => r ++ [x]) m.stress_tensor col }, ?_, ?_, ?_⟩
    · unfold FEModel.add_stress_column columnStack
      rw [if_pos hlen]
      rfl
    · simp [List.length_zipWith, hlen]
    · intro i r x hr hx
      constructor
      · simp only
        rw [List.getElem?_zipWith', hr, hx]
        rfl
      · have hmem : r ∈ m.stress_tensor := by
          obtain ⟨hlt, rfl⟩ := List.getElem?_eq_some_iff.mp hr
          exact List.getElem_mem hlt
        simp [hrows r hmem]
  · intro hlen
    unfold FEModel.add_stress_column columnStack
    rw [if_neg hlen]
    rfl

/-- Claim C6 witness: appending [9] to the one-row table [[1,2,3,4,5,6]]
succeeds with the row becoming [1,2,3,4,5,6,9]; appending the two-entry
column [9,10] fails. -/
theorem claim_C6_witness :
    (∃ m', (mkFEModel [] [] [] [[(1 : ℝ), 2, 3, 4, 5, 6]] []).add_stress_column [9] =
        some m' ∧
      m'.stress_tensor.length =
        (mkFEModel [] [] [] [[(1 : ℝ), 2, 3, 4, 5, 6]] []).stress_tensor.length ∧
      ∀ (i : ℕ) (r : List ℝ) (x : ℝ),
        (mkFEModel [] [] [] [[(1 : ℝ), 2, 3, 4, 5, 6]] []).stress_tensor[i]? = some r →
        ([(9 : ℝ)])[i]? = some x →
        m'.stress_tensor[i]? = some (r ++ [x]) ∧ (r ++ [x]).length = 7) ∧
    (mkFEModel [] [] [] [[(1 : ℝ), 2, 3, 4, 5, 6]] []).add_stress_column [9, 10] =
      none := by
  constructor
  · exact (claim_C6_add_stress_column (mkFEModel [] [] [] [[(1 : ℝ), 2, 3, 4, 5, 6]] [])
      [9] (by intro r hr; simp [mkFEModel] at hr; subst hr; rfl)).1 rfl
  · exact (claim_C6_add_stress_column (mkFEModel [] [] [] [[(1 : ℝ), 2, 3, 4, 5, 6]] [])
      [9, 10] (by intro r hr; simp [mkFEModel] at hr; subst hr; rfl)).2 (by simp [mkFEModel])

/-- Claim C10: the node-to-element map of a constructed model lists element
id e under node id n exactly once per occurrence of n in connectivity[e],
in connectivity iteration order (the occurrence list), and a successful
add_stress_column leaves node_element_map, element_id, node_id,
node_coordinates and connectivity unchanged. -/
theorem claim_C10_node_element_map (eid nid : List ℤ)
    (coords : List (ℝ × ℝ × ℝ)) (stress : List (List ℝ))
    (conn : List (ℤ × List ℤ)) (n : ℤ) (c : List ℝ) (m' : FEModel) :
    lookupList (mkFEModel eid nid coords stress conn).node_element_map n =
      occList conn n ∧
    ((mkFEModel eid nid coords stress conn).add_stress_column c = some m' →
      m'.node_element_map = (mkFEModel eid nid coords stress conn).node_element_map ∧
      m'.element_id = eid ∧ m'.node_id = nid ∧
      m'.node_coordinates = coords ∧ m'.connectivity = conn) := by
  constructor
  · exact lookupList_buildNodeElementMap conn n
  · intro h
    unfold FEModel.add_stress_column at h
    rcases Option.map_eq_some'.mp h with ⟨t, _, rfl⟩
    exact ⟨rfl, rfl, rfl, rfl, rfl⟩

/-- Claim C10 witness: on connectivity [(1, [10, 11]), (2, [11])] node 11
maps to [1, 2]; appending the column [7] to the one-row table preserves all
non-stress fields. -/
theorem claim_C10_witness :
    lookupList (mkFEModel [1, 2] [10, 11] [] [[(1 : ℝ), 2, 3, 4, 5, 6]]
        [(1, [10, 11]), (2, [11])]).node_element_map 11 =
      occList [(1, [10, 11]), (2, [11])] 11 ∧
    ((mkFEModel [1, 2] [10, 11] [] [[(1 : ℝ), 2, 3, 4, 5, 6]]
        [(1, [10, 11]), (2, [11])]).add_stress_column [7]).elim False
      (fun m' => m'.element_id = [1, 2] ∧ m'.node_id = [10, 11] ∧
        m'.connectivity = [(1, [10, 11]), (2, [11])]) := by
  constructor
  · exact (claim_C10_node_element_map [1, 2] [10, 11] [] [[(1 : ℝ), 2, 3, 4, 5, 6]]
      [(1, [10, 11]), (2, [11])] 11 [7]
      (mkFEModel [1, 2] [10, 11] [] [[(1 : ℝ), 2, 3, 4, 5, 6]]
        [(1, [10, 11]), (2, [11])])).1
  · have h := (claim_C10_node_element_map [1, 2] [10, 11] [] [[(1 : ℝ), 2, 3, 4, 5, 6]]
      [(1, [10, 11]), (2, [11])] 11 [7]
      { mkFEModel [1, 2] [10, 11] [] [[(1 : ℝ), 2, 3, 4, 5, 6]]
          [(1, [10, 11]), (2, [11])] with
        stress_tensor := [[(1 : ℝ), 2, 3, 4, 5, 6, 7]] }).2 rfl
    simp only [Option.elim]
    exact ⟨h.2.1, h.2.2.1, h.2.2.2.2⟩

/-- Claim C2: evaluation of the code at the failing input. On the 2-point
table [[30,0,0,0,0,0],[0,0,0,0,0,0]] with the Goodman correction and UTS
500, `MansonMcKnight.calculate_eq_stress` reduces the WHOLE table to the
global scalars min = 0 and max = 30, forms scalar mean = amplitude = 15 and
sigma values sqrt(15^2) = 15 (the source's `# dummy calculation`), and
returns the single scalar 15 / (1 - 15/500) = 1500/97 — not a shape-(2,)
array obtained from the section-4.1 per-point Manson-McKnight reduction as
the claim states. -/
theorem claim_C2_dummy_eval :
    MansonMcKnight.calculate_eq_stress
      (fun a m mat => goodmanPoint a m mat.ultimate_tensile_strength)
      (mkFEModel [1] [10, 11] [] [[30, 0, 0, 0, 0, 0], [0, 0, 0, 0, 0, 0]] [])
      sampleMaterial = some (1500 / 97) := by
  have hst : (mkFEModel [1] [10, 11] []
      [[(30 : ℝ), 0, 0, 0, 0, 0], [0, 0, 0, 0, 0, 0]] []).stress_tensor =
      [[(30 : ℝ), 0, 0, 0, 0, 0], [0, 0, 0, 0, 0, 0]] := rfl
  have hflat : (([[(30 : ℝ), 0, 0, 0, 0, 0], [0, 0, 0, 0, 0, 0]] :
      List (List ℝ)).flatMap id) =
      [30, 0, 0, 0, 0, 0, 0, 0, 0, 0, 0, 0] := by
    simp
  have hmin : npMin ([30, 0, 0, 0, 0, 0, 0, 0, 0, 0, 0, 0] : List ℝ) = some 0 := by
    unfold npMin
    norm_num [List.foldl, min_def]
  have hmax : npMax ([30, 0, 0, 0, 0, 0, 0, 0, 0, 0, 0, 0] : List ℝ) = some 30 := by
    unfold npMax
    norm_num [List.foldl, max_def]
  have hsa : Real.sqrt ((((30 : ℝ) - 0) / 2) ^ 2) = 15 := by
    rw [show (((30 : ℝ) - 0) / 2) = 15 by norm_num]
    exact Real.sqrt_sq (by norm_num)
  have hsm : Real.sqrt ((((30 : ℝ) + 0) / 2) ^ 2) = 15 := by
    rw [show (((30 : ℝ) + 0) / 2) = 15 by norm_num]
    exact Real.sqrt_sq (by norm_num)
  unfold MansonMcKnight.calculate_eq_stress
  rw [hst, hflat, hmin, hmax]
  simp only [goodmanPoint, sampleMaterial]
  rw [hsa, hsm]
  norm_num
